import Mathlib

/-!
Verification of the sign-language inference server (`server/app.py`).

The server holds three process-wide artifacts — a classifier (`model`), a
label decoder (`label_encoder`) and an optional feature `scaler` — and
serves two request handlers, `health_check` and `predict`.  We embed the
handlers shallowly: artifacts are records of (possibly absent) capability
functions, machine floats are modelled as the elements of a linearly
ordered field `F` (instantiated with `ℝ` where the value of the
exponential matters and with `ℚ` for concrete evaluations), numpy's `exp`
is a function parameter `npExp`, and Python exceptions are modelled with
`Except String`.
-/

section Model

variable (F : Type)

/-- Request body for the prediction endpoint (`PredictRequest`). -/
structure PredictRequest where
  features : List F

/-- Response body for the prediction endpoint (`PredictResponse`). -/
structure PredictResponse where
  prediction : String
  confidence : Option F

/-- Response body for the health check endpoint (`HealthResponse`). -/
structure HealthResponse where
  status : String
  model_loaded : Bool
  label_encoder_loaded : Bool

/-- A FastAPI `HTTPException`: a status code plus a detail message. -/
structure HTTPException where
  status_code : Nat
  detail : String

/-- The value of `model.decision_function(X)[0]`: for a single row numpy
returns either an ndarray of per-class scores or a bare scalar (binary
classifiers).  The code dispatches on `isinstance(scores, np.ndarray)`. -/
inductive DecisionRow where
  | ndarray (xs : List F)
  | scalar (x : F)

/-- The unpickled classifier.  `predict` gives `model.predict(X)[0]` (a raw
class index); `predict_proba` and `decision_function` are the optional
capabilities probed by `hasattr`, each returning the first (only) row of
the corresponding numpy result.  Any call may raise, hence `Except`. -/
structure Classifier where
  predict : List F → Except String ℤ
  predict_proba : Option (List F → Except String (List F))
  decision_function : Option (List F → Except String (DecisionRow F))

/-- The unpickled label decoder: its `classes_` attribute and the optional
`inverse_transform` capability probed by `hasattr`, returning the decoded
label for a raw class index. -/
structure LabelEncoder where
  classes : List String
  inverse_transform : Option (ℤ → Except String String)

/-- The unpickled optional scaler with its `transform` method. -/
structure Scaler where
  transform : List F → Except String (List F)

/-- The process-wide globals `model`, `label_encoder`, `scaler`, each of
which is `None` until `load_models` fills it in. -/
structure ArtifactBundle where
  model : Option (Classifier F)
  label_encoder : Option LabelEncoder
  scaler : Option (Scaler F)

end Model

section Handlers

variable {F : Type} [LinearOrderedField F]

/-- `np.max` over a 1-d array: raises on an empty array, otherwise the
maximum element. -/
def npMax : List F → Except String F
  | [] => Except.error "zero-size array to reduction operation maximum"
  | x :: xs => Except.ok (xs.foldl max x)

/-- Step 2 of the predict handler: `if scaler is not None: X = scaler.transform(X)`. -/
def applyScaler (scaler : Option (Scaler F)) (X : List F) : Except String (List F) :=
  match scaler with
  | some s => s.transform X
  | none => Except.ok X

/-- Step 4 of the predict handler: decode the class index via
`label_encoder.inverse_transform` when that attribute exists, else fall
back to `str(prediction_idx)`. -/
def decodeLabel (label_encoder : LabelEncoder) (prediction_idx : ℤ) : Except String String :=
  match label_encoder.inverse_transform with
  | some inv => inv prediction_idx
  | none => Except.ok (toString prediction_idx)

/-- The softmax-style normalization applied to decision-function scores:
`exp_scores = np.exp(scores - np.max(scores))` followed by
`np.max(exp_scores / exp_scores.sum())`. -/
def softmaxConfidence (npExp : F → F) (scores : List F) : Except String F :=
  match npMax scores with
  | Except.error e => Except.error e
  | Except.ok m =>
    let exp_scores := scores.map (fun s => npExp (s - m))
    npMax (exp_scores.map (fun x => x / exp_scores.sum))

/-- Step 5 of the predict handler: `confidence = None`, then prefer
`predict_proba` (maximum probability), else `decision_function` with the
softmax normalization when the row is an ndarray (`None` for a scalar
row), else leave `confidence = None`. -/
def deriveConfidence (npExp : F → F) (model : Classifier F) (X : List F) :
    Except String (Option F) :=
  match model.predict_proba with
  | some pp =>
    match pp X with
    | Except.error e => Except.error e
    | Except.ok proba =>
      match npMax proba with
      | Except.error e => Except.error e
      | Except.ok c => Except.ok (some c)
  | none =>
    match model.decision_function with
    | some df =>
      match df X with
      | Except.error e => Except.error e
      | Except.ok (DecisionRow.ndarray arr) =>
        match softmaxConfidence npExp arr with
        | Except.error e => Except.error e
        | Except.ok c => Except.ok (some c)
      | Except.ok (DecisionRow.scalar _) => Except.ok none
    | none => Except.ok none

/-- The `try:` block of the predict handler: arrange the row, apply the
scaler, run the classifier, decode the label, derive the confidence, and
build the response; the first raised exception aborts the block. -/
def tryPredict (npExp : F → F) (model : Classifier F) (label_encoder : LabelEncoder)
    (scaler : Option (Scaler F)) (features : List F) : Except String (PredictResponse F) :=
  match applyScaler scaler features with
  | Except.error e => Except.error e
  | Except.ok X =>
    match model.predict X with
    | Except.error e => Except.error e
    | Except.ok prediction_idx =>
      match decodeLabel label_encoder prediction_idx with
      | Except.error e => Except.error e
      | Except.ok prediction_label =>
        match deriveConfidence npExp model X with
        | Except.error e => Except.error e
        | Except.ok confidence =>
          Except.ok { prediction := prediction_label, confidence := confidence }

/-- The `POST /predict` handler: 503 when the model or the label encoder is
absent, 400 when the feature count is not 63, otherwise the `try:` block
with any exception wrapped into a 500 `HTTPException`. -/
def predict (npExp : F → F) (bundle : ArtifactBundle F) (request : PredictRequest F) :
    Except HTTPException (PredictResponse F) :=
  match bundle.model with
  | none =>
    Except.error { status_code := 503, detail := "Model not loaded. Please check server logs." }
  | some model =>
    match bundle.label_encoder with
    | none =>
      Except.error
        { status_code := 503, detail := "Label encoder not loaded. Please check server logs." }
    | some label_encoder =>
      let features := request.features
      let expected_features := 63
      if features.length ≠ expected_features then
        Except.error
          { status_code := 400,
            detail := "Expected " ++ toString expected_features ++ " features, got " ++
              toString features.length }
      else
        match tryPredict npExp model label_encoder bundle.scaler features with
        | Except.ok resp => Except.ok resp
        | Except.error e =>
          Except.error { status_code := 500, detail := "Prediction error: " ++ e }

/-- The `GET /health` handler: always status `"ok"`, with the two booleans
`model is not None` and `label_encoder is not None`. -/
def health_check (bundle : ArtifactBundle F) : HealthResponse :=
  { status := "ok",
    model_loaded := bundle.model.isSome,
    label_encoder_loaded := bundle.label_encoder.isSome }

/-- The predict handler as a state transformer over the process-wide
globals: the handler body contains no `global` statement and assigns no
module-level name, so the translated handler returns the state unchanged
alongside the response. -/
def predictEndpoint (npExp : F → F) (state : ArtifactBundle F) (request : PredictRequest F) :
    ArtifactBundle F × Except HTTPException (PredictResponse F) :=
  (state, predict npExp state request)

end Handlers

section ConcreteArtifacts

/-- A concrete single-class encoder for the concrete evaluations. -/
def encA : LabelEncoder :=
  { classes := ["A"], inverse_transform := some (fun _ => Except.ok "A") }

/-- A concrete encoder lacking the inverse-mapping capability. -/
def encNoInv : LabelEncoder := { classes := [], inverse_transform := none }

/-- A concrete classifier exposing both the probability and the
decision-score capabilities. -/
def clsBoth : Classifier ℚ :=
  { predict := fun _ => Except.ok 0,
    predict_proba := some (fun _ => Except.ok [1]),
    decision_function := some (fun _ => Except.ok (DecisionRow.ndarray [5])) }

/-- A concrete probability-free classifier whose decision row is a bare
scalar. -/
def clsScalar : Classifier ℚ :=
  { predict := fun _ => Except.ok 0,
    predict_proba := none,
    decision_function := some (fun _ => Except.ok (DecisionRow.scalar 3)) }

/-- A concrete classifier whose predict call raises. -/
def clsRaise : Classifier ℚ :=
  { predict := fun _ => Except.error "boom",
    predict_proba := none,
    decision_function := none }

/-- A bundle holding the two-capability classifier and the decoder. -/
def bundleBoth : ArtifactBundle ℚ :=
  { model := some clsBoth, label_encoder := some encA, scaler := none }

/-- A bundle holding the scalar-row classifier and the decoder. -/
def bundleScalar : ArtifactBundle ℚ :=
  { model := some clsScalar, label_encoder := some encA, scaler := none }

/-- A bundle holding the raising classifier and the decoder. -/
def bundleRaise : ArtifactBundle ℚ :=
  { model := some clsRaise, label_encoder := some encA, scaler := none }

/-- A bundle holding the two-capability classifier and the inverse-free
decoder. -/
def bundleNoInv : ArtifactBundle ℚ :=
  { model := some clsBoth, label_encoder := some encNoInv, scaler := none }

/-- The state before any artifact is loaded. -/
def bundleEmpty : ArtifactBundle ℚ := { model := none, label_encoder := none, scaler := none }

/-- A 63-length feature vector of zeros. -/
def feats63 : List ℚ := List.replicate 63 0

/-- A trivially positive stand-in for the exponential. -/
def oneExp : ℚ → ℚ := fun _ => 1

end ConcreteArtifacts


section Lemmas

variable {F : Type} [LinearOrderedField F]

/-- The seed of a `max`-fold is below the fold's result. -/
theorem le_foldl_max (xs : List F) : ∀ a : F, a ≤ xs.foldl max a := by
  induction xs with
  | nil => intro a; exact le_refl a
  | cons z zs ih => intro a; exact le_trans (le_max_left a z) (ih (max a z))

/-- Every member of the list is below the result of a `max`-fold over it. -/
theorem foldl_max_le_of_mem (xs : List F) : ∀ a y : F, y ∈ xs → y ≤ xs.foldl max a := by
  induction xs with
  | nil => intro a y hy; cases hy
  | cons z zs ih =>
    intro a y hy
    rcases List.mem_cons.mp hy with h | h
    · subst h; exact le_trans (le_max_right a y) (le_foldl_max zs (max a y))
    · exact ih (max a z) y h

/-- The result of a `max`-fold is the seed or one of the list's members. -/
theorem foldl_max_mem (xs : List F) : ∀ a : F, xs.foldl max a ∈ a :: xs := by
  induction xs with
  | nil => intro a; simp [List.foldl]
  | cons z zs ih =>
    intro a
    rcases List.mem_cons.mp (ih (max a z)) with h | h
    · rcases max_choice a z with hm | hm
      · rw [List.foldl_cons, h, hm]; exact List.mem_cons_self a (z :: zs)
      · rw [List.foldl_cons, h, hm]
        exact List.mem_cons_of_mem a (List.mem_cons_self z zs)
    · exact List.mem_cons_of_mem a (List.mem_cons_of_mem z h)

/-- `np.max` on a nonempty array succeeds and returns the greatest member. -/
theorem npMax_ok_spec (x : F) (xs : List F) :
    ∃ m, npMax (x :: xs) = Except.ok m ∧ m ∈ x :: xs ∧ ∀ y ∈ x :: xs, y ≤ m := by
  refine ⟨xs.foldl max x, rfl, foldl_max_mem xs x, ?_⟩
  intro y hy
  rcases List.mem_cons.mp hy with h | h
  · subst h; exact le_foldl_max xs y
  · exact foldl_max_le_of_mem xs x y h

/-- `np.max` of a positive list divided elementwise by its own sum succeeds
and lands in the unit interval. -/
theorem npMax_div_sum_unit (l : List F) (hl : l ≠ []) (hpos : ∀ x ∈ l, 0 < x) :
    ∃ c, npMax (l.map (fun x => x / l.sum)) = Except.ok c ∧ 0 ≤ c ∧ c ≤ 1 := by
  obtain ⟨a, arr, rfl⟩ := List.exists_cons_of_ne_nil hl
  have htot : 0 < (a :: arr).sum := List.sum_pos _ hpos hl
  obtain ⟨c, hc, hcmem, _⟩ :=
    npMax_ok_spec (a / (a :: arr).sum) (arr.map (fun x => x / (a :: arr).sum))
  have hcmem2 : c ∈ (a :: arr).map (fun x => x / (a :: arr).sum) := hcmem
  rcases List.mem_map.mp hcmem2 with ⟨x, hx, rfl⟩
  refine ⟨x / (a :: arr).sum, hc, ?_, ?_⟩
  · exact div_nonneg (hpos x hx).le htot.le
  · exact (div_le_one htot).mpr (List.single_le_sum (fun y hy => (hpos y hy).le) x hx)

/-- On a nonempty score row, the softmax normalization succeeds (for a
positive exponential) and its value lies in the unit interval. -/
theorem softmaxConfidence_unit (npExp : F → F) (hexp : ∀ t, 0 < npExp t)
    (a : F) (arr : List F) :
    ∃ c, softmaxConfidence npExp (a :: arr) = Except.ok c ∧ 0 ≤ c ∧ c ≤ 1 := by
  have hmax : npMax (a :: arr) = Except.ok (arr.foldl max a) := rfl
  obtain ⟨c, hc, h0, h1⟩ :=
    npMax_div_sum_unit ((a :: arr).map (fun s => npExp (s - arr.foldl max a)))
      (by simp)
      (by intro x hx; rcases List.mem_map.mp hx with ⟨s, _, rfl⟩; exact hexp _)
  refine ⟨c, ?_, h0, h1⟩
  simp only [softmaxConfidence, hmax]
  exact hc

/-- Under a well-behaved classifier, the confidence derivation succeeds and
yields `none` or a value in the unit interval. -/
theorem deriveConfidence_unit (npExp : F → F) (model : Classifier F) (X : List F)
    (hpp : ∀ pp, model.predict_proba = some pp →
      ∃ p, pp X = Except.ok p ∧ p ≠ [] ∧ ∀ q ∈ p, 0 ≤ q ∧ q ≤ 1)
    (hdf : ∀ df, model.decision_function = some df →
      ∃ s, df X = Except.ok s ∧ ∀ arr, s = DecisionRow.ndarray arr → arr ≠ [])
    (hexp : ∀ t, 0 < npExp t) :
    ∃ c, deriveConfidence npExp model X = Except.ok c ∧
      (c = none ∨ ∃ v, c = some v ∧ 0 ≤ v ∧ v ≤ 1) := by
  cases hppo : model.predict_proba with
  | some pp =>
    obtain ⟨p, hpX, hpne, hpbound⟩ := hpp pp hppo
    obtain ⟨a, rest, rfl⟩ := List.exists_cons_of_ne_nil hpne
    obtain ⟨mx, hmx, hmem, _⟩ := npMax_ok_spec a rest
    refine ⟨some mx, ?_, Or.inr ⟨mx, rfl, (hpbound mx hmem).1, (hpbound mx hmem).2⟩⟩
    simp only [deriveConfidence, hppo, hpX, hmx]
  | none =>
    cases hdfo : model.decision_function with
    | some df =>
      obtain ⟨s, hsX, hsarr⟩ := hdf df hdfo
      cases s with
      | ndarray arr =>
        obtain ⟨a, rest, hcons⟩ := List.exists_cons_of_ne_nil (hsarr arr rfl)
        subst hcons
        obtain ⟨c, hc, h0, h1⟩ := softmaxConfidence_unit npExp hexp a rest
        refine ⟨some c, ?_, Or.inr ⟨c, rfl, h0, h1⟩⟩
        simp only [deriveConfidence, hppo, hdfo, hsX, hc]
      | scalar x =>
        refine ⟨none, ?_, Or.inl rfl⟩
        simp only [deriveConfidence, hppo, hdfo, hsX]
    | none =>
      refine ⟨none, ?_, Or.inl rfl⟩
      simp only [deriveConfidence, hppo, hdfo]

/-- The `try:` block succeeds when each of its steps succeeds, returning
the decoded label paired with the derived confidence. -/
theorem tryPredict_ok (npExp : F → F) (model : Classifier F) (label_encoder : LabelEncoder)
    (scaler : Option (Scaler F)) (features X : List F) (idx : ℤ) (lbl : String)
    (conf : Option F)
    (hX : applyScaler scaler features = Except.ok X)
    (hidx : model.predict X = Except.ok idx)
    (hlbl : decodeLabel label_encoder idx = Except.ok lbl)
    (hconf : deriveConfidence npExp model X = Except.ok conf) :
    tryPredict npExp model label_encoder scaler features =
      Except.ok { prediction := lbl, confidence := conf } := by
  simp only [tryPredict, hX, hidx, hlbl, hconf]

/-- When the guards pass and the `try:` block succeeds, the handler returns
the block's response. -/
theorem predict_of_tryPredict_ok (npExp : F → F) (bundle : ArtifactBundle F)
    (model : Classifier F) (label_encoder : LabelEncoder) (features : List F)
    (resp : PredictResponse F)
    (hm : bundle.model = some model)
    (he : bundle.label_encoder = some label_encoder)
    (hlen : features.length = 63)
    (ht : tryPredict npExp model label_encoder bundle.scaler features = Except.ok resp) :
    predict npExp bundle { features := features } = Except.ok resp := by
  simp [predict, hm, he, hlen, ht]

/-- When the guards pass and the `try:` block raises, the handler returns
the 500 wrapper around the raised message. -/
theorem predict_of_tryPredict_error (npExp : F → F) (bundle : ArtifactBundle F)
    (model : Classifier F) (label_encoder : LabelEncoder) (features : List F)
    (msg : String)
    (hm : bundle.model = some model)
    (he : bundle.label_encoder = some label_encoder)
    (hlen : features.length = 63)
    (ht : tryPredict npExp model label_encoder bundle.scaler features = Except.error msg) :
    predict npExp bundle { features := features } =
      Except.error { status_code := 500, detail := "Prediction error: " ++ msg } := by
  simp [predict, hm, he, hlen, ht]

end Lemmas

/-- Claim C1: for every feature list of length exactly 63, with classifier
and label decoder loaded and behaving as fitted sklearn artifacts do
(capability calls succeed, probability rows are nonempty with entries in
the unit interval, ndarray score rows are nonempty, the inverse mapping
lands in the known class set, the exponential is positive), the predict
handler returns a response — not an error — whose label is in the
decoder's class set and whose confidence is `none` or lies in `[0,1]`. -/
theorem predict_valid63_ok {F : Type} [LinearOrderedField F] (npExp : F → F)
    (bundle : ArtifactBundle F) (model : Classifier F) (label_encoder : LabelEncoder)
    (features : List F) (inv : ℤ → Except String String)
    (hm : bundle.model = some model)
    (he : bundle.label_encoder = some label_encoder)
    (hlen : features.length = 63)
    (hsc : ∀ sc, bundle.scaler = some sc → ∀ X, ∃ Y, sc.transform X = Except.ok Y)
    (hpredict : ∀ X, ∃ i, model.predict X = Except.ok i)
    (hinv : label_encoder.inverse_transform = some inv)
    (hinvOk : ∀ i, ∃ l, inv i = Except.ok l ∧ l ∈ label_encoder.classes)
    (hpp : ∀ pp, model.predict_proba = some pp → ∀ X,
      ∃ p, pp X = Except.ok p ∧ p ≠ [] ∧ ∀ q ∈ p, 0 ≤ q ∧ q ≤ 1)
    (hdf : ∀ df, model.decision_function = some df → ∀ X,
      ∃ s, df X = Except.ok s ∧ ∀ arr, s = DecisionRow.ndarray arr → arr ≠ [])
    (hexp : ∀ t, 0 < npExp t) :
    ∃ resp, predict npExp bundle { features := features } = Except.ok resp ∧
      resp.prediction ∈ label_encoder.classes ∧
      (resp.confidence = none ∨ ∃ c, resp.confidence = some c ∧ 0 ≤ c ∧ c ≤ 1) := by
  have hXex : ∃ X, applyScaler bundle.scaler features = Except.ok X := by
    cases hs : bundle.scaler with
    | none => exact ⟨features, rfl⟩
    | some sc =>
      obtain ⟨Y, hY⟩ := hsc sc hs features
      exact ⟨Y, by simp [applyScaler, hY]⟩
  obtain ⟨X, hX⟩ := hXex
  obtain ⟨idx, hidx⟩ := hpredict X
  obtain ⟨lbl, hlbl, hlblmem⟩ := hinvOk idx
  have hdec : decodeLabel label_encoder idx = Except.ok lbl := by
    simp [decodeLabel, hinv, hlbl]
  obtain ⟨conf, hconf, hbound⟩ :=
    deriveConfidence_unit npExp model X (fun pp h => hpp pp h X) (fun df h => hdf df h X) hexp
  refine ⟨{ prediction := lbl, confidence := conf }, ?_, hlblmem, hbound⟩
  exact predict_of_tryPredict_ok npExp bundle model label_encoder features _ hm he hlen
    (tryPredict_ok npExp model label_encoder bundle.scaler features X idx lbl conf
      hX hidx hdec hconf)

/-- Claim C2: confidence precedence in the predict handler — with the
guards passed and the earlier steps fixed, a present `predict_proba`
gives the maximum probability of the row (regardless of any
`decision_function`); otherwise a present `decision_function` returning
an ndarray row gives the maximum of the stable softmax of the scores;
with neither capability the confidence is `none`. -/
theorem predict_confidence_precedence {F : Type} [LinearOrderedField F] (npExp : F → F)
    (bundle : ArtifactBundle F) (model : Classifier F) (label_encoder : LabelEncoder)
    (features X : List F) (idx : ℤ) (lbl : String)
    (hm : bundle.model = some model)
    (he : bundle.label_encoder = some label_encoder)
    (hlen : features.length = 63)
    (hX : applyScaler bundle.scaler features = Except.ok X)
    (hidx : model.predict X = Except.ok idx)
    (hlbl : decodeLabel label_encoder idx = Except.ok lbl) :
    (∀ pp proba c, model.predict_proba = some pp → pp X = Except.ok proba →
      npMax proba = Except.ok c →
      predict npExp bundle { features := features } =
        Except.ok { prediction := lbl, confidence := some c }) ∧
    (∀ df arr c, model.predict_proba = none → model.decision_function = some df →
      df X = Except.ok (DecisionRow.ndarray arr) →
      softmaxConfidence npExp arr = Except.ok c →
      predict npExp bundle { features := features } =
        Except.ok { prediction := lbl, confidence := some c }) ∧
    (model.predict_proba = none → model.decision_function = none →
      predict npExp bundle { features := features } =
        Except.ok { prediction := lbl, confidence := none }) := by
  refine ⟨?_, ?_, ?_⟩
  · intro pp proba c hppo hproba hmx
    have hconf : deriveConfidence npExp model X = Except.ok (some c) := by
      simp only [deriveConfidence, hppo, hproba, hmx]
    exact predict_of_tryPredict_ok npExp bundle model label_encoder features _ hm he hlen
      (tryPredict_ok npExp model label_encoder bundle.scaler features X idx lbl _
        hX hidx hlbl hconf)
  · intro df arr c hppo hdfo hrow hsm
    have hconf : deriveConfidence npExp model X = Except.ok (some c) := by
      simp only [deriveConfidence, hppo, hdfo, hrow, hsm]
    exact predict_of_tryPredict_ok npExp bundle model label_encoder features _ hm he hlen
      (tryPredict_ok npExp model label_encoder bundle.scaler features X idx lbl _
        hX hidx hlbl hconf)
  · intro hppo hdfo
    have hconf : deriveConfidence npExp model X = Except.ok none := by
      simp only [deriveConfidence, hppo, hdfo]
    exact predict_of_tryPredict_ok npExp bundle model label_encoder features _ hm he hlen
      (tryPredict_ok npExp model label_encoder bundle.scaler features X idx lbl _
        hX hidx hlbl hconf)

/-- Claim C5: the predicted class index is decoded through the decoder's
`inverse_transform` when that capability exists; when the decoder lacks
it, the returned label is the stringified raw class index. -/
theorem predict_label_decode {F : Type} [LinearOrderedField F] (npExp : F → F)
    (bundle : ArtifactBundle F) (model : Classifier F) (label_encoder : LabelEncoder)
    (features X : List F) (idx : ℤ) (conf : Option F)
    (hm : bundle.model = some model)
    (he : bundle.label_encoder = some label_encoder)
    (hlen : features.length = 63)
    (hX : applyScaler bundle.scaler features = Except.ok X)
    (hidx : model.predict X = Except.ok idx)
    (hconf : deriveConfidence npExp model X = Except.ok conf) :
    (∀ inv lbl, label_encoder.inverse_transform = some inv → inv idx = Except.ok lbl →
      predict npExp bundle { features := features } =
        Except.ok { prediction := lbl, confidence := conf }) ∧
    (label_encoder.inverse_transform = none →
      predict npExp bundle { features := features } =
        Except.ok { prediction := toString idx, confidence := conf }) := by
  constructor
  · intro inv lbl hinv hlbl
    exact predict_of_tryPredict_ok npExp bundle model label_encoder features _ hm he hlen
      (tryPredict_ok npExp model label_encoder bundle.scaler features X idx lbl conf
        hX hidx (by simp [decodeLabel, hinv, hlbl]) hconf)
  · intro hnone
    exact predict_of_tryPredict_ok npExp bundle model label_encoder features _ hm he hlen
      (tryPredict_ok npExp model label_encoder bundle.scaler features X idx (toString idx) conf
        hX hidx (by simp [decodeLabel, hnone]) hconf)

/-- Claim C7: the predict handler is deterministic — two runs against the
same artifact bundle and the same request yield the same label and the
same confidence. -/
theorem predict_deterministic {F : Type} [LinearOrderedField F] (npExp : F → F)
    (bundle : ArtifactBundle F) (request : PredictRequest F) (r1 r2 : PredictResponse F)
    (h1 : predict npExp bundle request = Except.ok r1)
    (h2 : predict npExp bundle request = Except.ok r2) :
    r1.prediction = r2.prediction ∧ r1.confidence = r2.confidence := by
  rw [h1] at h2
  injection h2 with h
  rw [h]
  exact ⟨rfl, rfl⟩

/-- Claim C8: the predict endpoint mutates no process-wide state — for
every request, succeeding or failing, the artifact bundle after the
operation is the one before it, and the operation produces nothing beyond
its response. -/
theorem predictEndpoint_frame {F : Type} [LinearOrderedField F] (npExp : F → F)
    (state : ArtifactBundle F) (request : PredictRequest F) :
    (predictEndpoint npExp state request).1 = state ∧
    (predictEndpoint npExp state request).2 = predict npExp state request :=
  ⟨rfl, rfl⟩

/-- Claim C9: the health handler always returns status `"ok"` together
with booleans equal to the presence of the classifier and of the label
decoder; in particular each boolean is `false` while the artifact is
absent and `true` once it is loaded. -/
theorem health_check_spec {F : Type} (bundle : ArtifactBundle F) :
    (health_check bundle).status = "ok" ∧
    (health_check bundle).model_loaded = bundle.model.isSome ∧
    (health_check bundle).label_encoder_loaded = bundle.label_encoder.isSome ∧
    (bundle.model = none → (health_check bundle).model_loaded = false) ∧
    (∀ m, bundle.model = some m → (health_check bundle).model_loaded = true) ∧
    (bundle.label_encoder = none → (health_check bundle).label_encoder_loaded = false) ∧
    (∀ enc, bundle.label_encoder = some enc →
      (health_check bundle).label_encoder_loaded = true) := by
  refine ⟨rfl, rfl, rfl, ?_, ?_, ?_, ?_⟩
  · intro h; simp [health_check, h]
  · intro m h; simp [health_check, h]
  · intro h; simp [health_check, h]
  · intro enc h; simp [health_check, h]

/-- Claim C10: a classifier without `predict_proba` whose decision row for
the single input is a bare scalar (binary classifier) yields confidence
`none`, even though `decision_function` is present. -/
theorem predict_scalar_row_confidence_none {F : Type} [LinearOrderedField F] (npExp : F → F)
    (bundle : ArtifactBundle F) (model : Classifier F) (label_encoder : LabelEncoder)
    (features X : List F) (idx : ℤ) (lbl : String)
    (df : List F → Except String (DecisionRow F)) (s : F)
    (hm : bundle.model = some model)
    (he : bundle.label_encoder = some label_encoder)
    (hlen : features.length = 63)
    (hX : applyScaler bundle.scaler features = Except.ok X)
    (hidx : model.predict X = Except.ok idx)
    (hlbl : decodeLabel label_encoder idx = Except.ok lbl)
    (hppo : model.predict_proba = none)
    (hdfo : model.decision_function = some df)
    (hrow : df X = Except.ok (DecisionRow.scalar s)) :
    predict npExp bundle { features := features } =
      Except.ok { prediction := lbl, confidence := none } := by
  have hconf : deriveConfidence npExp model X = Except.ok none := by
    simp only [deriveConfidence, hppo, hdfo, hrow]
  exact predict_of_tryPredict_ok npExp bundle model label_encoder features _ hm he hlen
    (tryPredict_ok npExp model label_encoder bundle.scaler features X idx lbl none
      hX hidx hlbl hconf)

/-- Claim C3: the predict handler fails with a 503 whenever the classifier
or the label decoder is absent, and with both present it fails with a 400
for every feature list whose length is not 63, with a detail naming the
expected count 63 and the actual count. -/
theorem predict_guard_errors {F : Type} [LinearOrderedField F] (npExp : F → F) :
    (∀ (bundle : ArtifactBundle F) (request : PredictRequest F),
      bundle.model = none ∨ bundle.label_encoder = none →
      ∃ d, predict npExp bundle request = Except.error d ∧ d.status_code = 503) ∧
    (∀ (bundle : ArtifactBundle F) (model : Classifier F) (label_encoder : LabelEncoder)
      (request : PredictRequest F),
      bundle.model = some model → bundle.label_encoder = some label_encoder →
      request.features.length ≠ 63 →
      predict npExp bundle request = Except.error
        { status_code := 400,
          detail := "Expected " ++ toString 63 ++ " features, got " ++
            toString request.features.length }) := by
  constructor
  · intro bundle request h
    cases hm : bundle.model with
    | none =>
      have hp : predict npExp bundle request =
          Except.error { status_code := 503, detail := "Model not loaded. Please check server logs." } := by
        simp [predict, hm]
      exact ⟨_, hp, rfl⟩
    | some model =>
      cases he : bundle.label_encoder with
      | none =>
        have hp : predict npExp bundle request =
            Except.error { status_code := 503, detail := "Label encoder not loaded. Please check server logs." } := by
          simp [predict, hm, he]
        exact ⟨_, hp, rfl⟩
      | some label_encoder =>
        rcases h with h | h
        · rw [hm] at h; cases h
        · rw [he] at h; cases h
  · intro bundle model label_encoder request hm he hne
    simp [predict, hm, he, hne]

/-- Claim C6: any exception raised inside the processing steps is surfaced
as a 500 whose detail wraps the underlying message, and a 500 arises only
after the availability and length guards have passed — failures of those
guards are reported as 503 or 400, never converted into the internal
error. -/
theorem predict_internal_wrap {F : Type} [LinearOrderedField F] (npExp : F → F) :
    (∀ (bundle : ArtifactBundle F) (model : Classifier F) (label_encoder : LabelEncoder)
      (features : List F) (msg : String),
      bundle.model = some model → bundle.label_encoder = some label_encoder →
      features.length = 63 →
      tryPredict npExp model label_encoder bundle.scaler features = Except.error msg →
      predict npExp bundle { features := features } =
        Except.error { status_code := 500, detail := "Prediction error: " ++ msg }) ∧
    (∀ (bundle : ArtifactBundle F) (request : PredictRequest F) (d : HTTPException),
      predict npExp bundle request = Except.error d → d.status_code = 500 →
      bundle.model ≠ none ∧ bundle.label_encoder ≠ none ∧ request.features.length = 63) := by
  constructor
  · intro bundle model label_encoder features msg hm he hlen herr
    exact predict_of_tryPredict_error npExp bundle model label_encoder features msg
      hm he hlen herr
  · intro bundle request d hpred h500
    cases hm : bundle.model with
    | none =>
      simp only [predict, hm] at hpred
      injection hpred with h
      rw [← h] at h500
      simp at h500
    | some model =>
      cases he : bundle.label_encoder with
      | none =>
        simp only [predict, hm, he] at hpred
        injection hpred with h
        rw [← h] at h500
        simp at h500
      | some label_encoder =>
        by_cases hlen : request.features.length = 63
        · exact ⟨Option.some_ne_none model, Option.some_ne_none label_encoder, hlen⟩
        · simp only [predict, hm, he] at hpred
          rw [if_pos hlen] at hpred
          injection hpred with h
          rw [← h] at h500
          simp at h500

/-- Claim C4: for the decision-score row `[2.0, 1.0, 0.1]`, the softmax
normalization used by the predict handler yields the maximum normalized
value `exp 0 / (exp 0 + exp (-1) + exp (-1.9))` exactly, over the reals
with the real exponential. -/
theorem softmax_example_value :
    softmaxConfidence Real.exp [2, 1, 0.1] =
      Except.ok (Real.exp 0 / (Real.exp 0 + Real.exp (-1) + Real.exp (-1.9))) := by
  have hfold : [(1:ℝ), 0.1].foldl max 2 = 2 := by
    show max (max (2:ℝ) 1) 0.1 = 2
    rw [max_eq_left (by norm_num : (1:ℝ) ≤ 2), max_eq_left (by norm_num : (0.1:ℝ) ≤ 2)]
  have hmax : npMax [(2:ℝ), 1, 0.1] = Except.ok 2 := by
    show Except.ok ([(1:ℝ), 0.1].foldl max 2) = Except.ok 2
    rw [hfold]
  have ha : (2:ℝ) - 2 = 0 := by norm_num
  have hb : (1:ℝ) - 2 = -1 := by norm_num
  have hc : (0.1:ℝ) - 2 = -1.9 := by norm_num
  simp only [softmaxConfidence, hmax, List.map_cons, List.map_nil, List.sum_cons,
    List.sum_nil, add_zero, ha, hb, hc]
  have hS : Real.exp 0 + (Real.exp (-1) + Real.exp (-1.9)) =
      Real.exp 0 + Real.exp (-1) + Real.exp (-1.9) := (add_assoc _ _ _).symm
  rw [hS]
  have hSpos : (0:ℝ) < Real.exp 0 + Real.exp (-1) + Real.exp (-1.9) := by positivity
  have h1 : Real.exp (-1) / (Real.exp 0 + Real.exp (-1) + Real.exp (-1.9)) ≤
      Real.exp 0 / (Real.exp 0 + Real.exp (-1) + Real.exp (-1.9)) := by
    apply div_le_div_of_nonneg_right ?_ hSpos.le
    exact Real.exp_le_exp.mpr (by norm_num)
  have h2 : Real.exp (-1.9) / (Real.exp 0 + Real.exp (-1) + Real.exp (-1.9)) ≤
      Real.exp 0 / (Real.exp 0 + Real.exp (-1) + Real.exp (-1.9)) := by
    apply div_le_div_of_nonneg_right ?_ hSpos.le
    exact Real.exp_le_exp.mpr (by norm_num)
  show Except.ok (List.foldl max _ _) = _
  simp only [List.foldl_cons, List.foldl_nil]
  rw [max_eq_left h1, max_eq_left h2]

/-- Concrete instantiation of the C1 theorem at a 63-length zero vector
against loaded, well-behaved artifacts. -/
theorem predict_valid63_ok_witness :
    ∃ resp, predict oneExp bundleBoth { features := feats63 } = Except.ok resp ∧
      resp.prediction ∈ encA.classes ∧
      (resp.confidence = none ∨ ∃ c, resp.confidence = some c ∧ 0 ≤ c ∧ c ≤ 1) :=
  predict_valid63_ok oneExp bundleBoth clsBoth encA feats63 (fun _ => Except.ok "A")
    rfl rfl rfl
    (fun sc h => absurd h (by simp [bundleBoth]))
    (fun _ => ⟨0, rfl⟩)
    rfl
    (fun _ => ⟨"A", rfl, by simp [encA]⟩)
    (fun pp hpp X => by
      simp only [clsBoth, Option.some.injEq] at hpp
      refine ⟨[1], by rw [← hpp], by simp, ?_⟩
      intro q hq
      simp only [List.mem_singleton] at hq
      subst hq
      norm_num)
    (fun df hdf X => by
      simp only [clsBoth, Option.some.injEq] at hdf
      refine ⟨DecisionRow.ndarray [5], by rw [← hdf], ?_⟩
      intro arr harr
      injection harr with h
      subst h
      simp)
    (fun t => by norm_num [oneExp])

/-- Concrete instantiation of the C2 theorem: with both capabilities
present, the probability path wins and the confidence is the maximum
probability. -/
theorem predict_confidence_precedence_witness :
    predict oneExp bundleBoth { features := feats63 } =
      Except.ok { prediction := "A", confidence := some 1 } :=
  (predict_confidence_precedence oneExp bundleBoth clsBoth encA feats63 feats63 0 "A"
    rfl rfl rfl rfl rfl rfl).1 (fun _ => Except.ok [1]) [1] 1 rfl rfl rfl

/-- Concrete instantiation of the C3 theorem: missing artifacts give a
503; a zero-length vector gives the 400 with expected and actual counts. -/
theorem predict_guard_errors_witness :
    (∃ d, predict oneExp bundleEmpty { features := feats63 } = Except.error d ∧
      d.status_code = 503) ∧
    predict oneExp bundleBoth { features := ([] : List ℚ) } = Except.error
      { status_code := 400,
        detail := "Expected " ++ toString 63 ++ " features, got " ++ toString (0 : ℕ) } :=
  ⟨(predict_guard_errors oneExp).1 bundleEmpty { features := feats63 } (Or.inl rfl),
   (predict_guard_errors oneExp).2 bundleBoth clsBoth encA { features := [] }
     rfl rfl (by decide)⟩

/-- Concrete instantiation of the C5 theorem at a decoder lacking the
inverse-mapping capability: the label is the stringified raw index. -/
theorem predict_label_decode_witness :
    predict oneExp bundleNoInv { features := feats63 } =
      Except.ok { prediction := toString (0 : ℤ), confidence := some 1 } :=
  (predict_label_decode oneExp bundleNoInv clsBoth encNoInv feats63 feats63 0 (some 1)
    rfl rfl rfl rfl rfl rfl).2 rfl

/-- Concrete instantiation of the C6 theorem: a raising classifier is
surfaced as the 500 wrapping the raised message. -/
theorem predict_internal_wrap_witness :
    predict oneExp bundleRaise { features := feats63 } =
      Except.error { status_code := 500, detail := "Prediction error: " ++ "boom" } :=
  (predict_internal_wrap oneExp).1 bundleRaise clsRaise encA feats63 "boom" rfl rfl rfl rfl

/-- Concrete instantiation of the C7 theorem at a fixed bundle and
request. -/
theorem predict_deterministic_witness :
    ({ prediction := "A", confidence := some 1 } : PredictResponse ℚ).prediction =
      ({ prediction := "A", confidence := some 1 } : PredictResponse ℚ).prediction ∧
    ({ prediction := "A", confidence := some 1 } : PredictResponse ℚ).confidence =
      ({ prediction := "A", confidence := some 1 } : PredictResponse ℚ).confidence :=
  predict_deterministic oneExp bundleBoth { features := feats63 }
    { prediction := "A", confidence := some 1 } { prediction := "A", confidence := some 1 }
    rfl rfl

/-- Concrete instantiation of the C9 theorem before and after loading. -/
theorem health_check_spec_witness :
    (health_check bundleEmpty).model_loaded = false ∧
    (health_check bundleBoth).model_loaded = true ∧
    (health_check bundleEmpty).label_encoder_loaded = false ∧
    (health_check bundleBoth).label_encoder_loaded = true :=
  ⟨(health_check_spec bundleEmpty).2.2.2.1 rfl,
   (health_check_spec bundleBoth).2.2.2.2.1 clsBoth rfl,
   (health_check_spec bundleEmpty).2.2.2.2.2.1 rfl,
   (health_check_spec bundleBoth).2.2.2.2.2.2 encA rfl⟩

/-- Concrete instantiation of the C10 theorem: a scalar decision row gives
confidence `none`. -/
theorem predict_scalar_row_confidence_none_witness :
    predict oneExp bundleScalar { features := feats63 } =
      Except.ok { prediction := "A", confidence := none } :=
  predict_scalar_row_confidence_none oneExp bundleScalar clsScalar encA feats63 feats63 0 "A"
    (fun _ => Except.ok (DecisionRow.scalar 3)) 3 rfl rfl rfl rfl rfl rfl rfl rfl rfl
